import Mathlib

/-!
Verification of the Foundation Model + Digital Twin demo.

Shallow embedding of the computational content of the repository's two
application scripts (`streamlit_app.py`, the "full" variant, and
`streamlit_app_simple.py`, the "simplified" variant), together with proofs
of the behavioural claims about them.

Python floats are modelled as rationals (`ℚ`); NumPy/`random` draws are
modelled as abstract oracle streams determined by the RNG seed, so that a
function which reseeds the generator is a function of the seed alone and
properties quantify over every possible draw.
-/

namespace FMToy

/-! ## Basic clinical categories (fixed discrete supports in both variants) -/

/-- Tumor stage: `random.choice(['IIIC', 'IV'])` support. -/
inductive Stage where
  | IIIC
  | IV
deriving DecidableEq, Repr

/-- Histological subtype: `['HGSOC', 'CCOC', 'Other']` support. -/
inductive HistSubtype where
  | HGSOC
  | CCOC
  | Other
deriving DecidableEq, Repr

/-- Germline BRCA status: `['Wild-type', 'BRCA1/2_mut']` support. -/
inductive BrcaStatus where
  | wildType
  | mut
deriving DecidableEq, Repr

/-! ## Numeric helpers shared by both variants -/

/-- Source: `np.clip(x, lo, hi)`: lower bound applied first, then the upper bound. -/
def npClip (lo hi x : ℚ) : ℚ := min hi (max lo x)

/-- Source: `int(x)` / `.astype(int)`: truncation toward zero. -/
def truncInt (q : ℚ) : ℤ := if 0 ≤ q then ⌊q⌋ else -⌊-q⌋

/-- Python's `round` on a value scaled to an integer position: round half to
even (banker's rounding) of a rational to the nearest integer. -/
def roundHalfEven (q : ℚ) : ℤ :=
  if q - ⌊q⌋ < 1/2 then ⌊q⌋
  else if 1/2 < q - ⌊q⌋ then ⌊q⌋ + 1
  else if ⌊q⌋ % 2 = 0 then ⌊q⌋ else ⌊q⌋ + 1

/-- Python's `round(x, d)` for `d` decimal digits. -/
def pyRound (d : ℕ) (x : ℚ) : ℚ := (roundHalfEven (x * 10 ^ d) : ℚ) / 10 ^ d

/-! ## Digital twin report: risk categorisation and treatment recommendation

Both variants contain, verbatim, the same two `if/elif/else` ladders over the
predicted survival (months) and the predicted resistance probability. -/

/-- The three risk tiers produced by the report's first ladder. -/
inductive RiskCategory where
  | high
  | medium
  | low
deriving DecidableEq, Repr

/-- The three treatment tiers produced by the report's second ladder. -/
inductive TreatmentRec where
  | alternative
  | monitoring
  | standard
deriving DecidableEq, Repr

/-- Source: `streamlit_app.py`: `if pred_survival < 15 … elif pred_survival < 30 … else`. -/
def riskCategoryFull (predSurvival : ℚ) : RiskCategory :=
  if predSurvival < 15 then .high
  else if predSurvival < 30 then .medium
  else .low

/-- Source: `streamlit_app_simple.py`: identical ladder on the simulated prediction. -/
def riskCategorySimple (predSurvival : ℚ) : RiskCategory :=
  if predSurvival < 15 then .high
  else if predSurvival < 30 then .medium
  else .low

/-- Source: `streamlit_app.py`:
`if pred_resistance_prob > 0.7 … elif pred_resistance_prob > 0.4 … else`. -/
def treatmentRecFull (predResistProb : ℚ) : TreatmentRec :=
  if predResistProb > 7/10 then .alternative
  else if predResistProb > 2/5 then .monitoring
  else .standard

/-- Source: `streamlit_app_simple.py`: identical ladder on the simulated probability. -/
def treatmentRecSimple (predResistProb : ℚ) : TreatmentRec :=
  if predResistProb > 7/10 then .alternative
  else if predResistProb > 2/5 then .monitoring
  else .standard

/-- Validation line of the report, both variants:
`resistance_correct = (pred_resistance_prob > 0.5) == (patient['platinum_resistant'] == 1)`. -/
def resistanceCorrect (predResistProb : ℚ) (platinumResistant : ℕ) : Bool :=
  (decide (predResistProb > 1/2)) == (decide (platinumResistant = 1))

/-! ## Python decimal formatting (`f"{i:03d}"`) -/

/-- The ASCII character of a decimal digit. -/
def digitChar (d : ℕ) : Char := Char.ofNat (48 + d)

/-- Decimal digits of `n`, least significant first, with explicit fuel so the
recursion is structural. -/
def decDigitsCore : ℕ → ℕ → List Char
  | 0, _ => []
  | _ + 1, 0 => []
  | fuel + 1, n + 1 => digitChar ((n + 1) % 10) :: decDigitsCore fuel ((n + 1) / 10)

/-- Decimal representation of a natural, most significant digit first
(Python `str(n)` for nonnegative `n`). -/
def decRepr (n : ℕ) : List Char := if n = 0 then ['0'] else (decDigitsCore n n).reverse

/-- Left-pad a character list with `'0'` to width `w`. -/
def padZeros (w : ℕ) (l : List Char) : List Char := List.replicate (w - l.length) '0' ++ l

/-- Python `f"{n:03d}"`. -/
def pyFormat03 (n : ℕ) : String := String.mk (padZeros 3 (decRepr n))

/-- Patient identifier, both variants: `f"OV{i:03d}"` for the 1-based ordinal `i`. -/
def patientId (i : ℕ) : String := "OV" ++ pyFormat03 i

/-! ## Full variant (`streamlit_app.py`): `generate_demo_data`

Every call of the NumPy RNG is abstracted as an oracle field of `FullDraws`;
the whole structure is a function of the seed (the function executes
`np.random.seed(42)` on entry), so the generator below takes a stream
`Ω : ℤ → FullDraws` mapping a seed to its draw stream, plus the RNG state it
was invoked under, which the reseed discards. -/

/-- One abstract draw stream of `generate_demo_data`: each field stands for one
family of `np.random` calls, indexed by patient (and gene / chromosome-arm
position where the call produces a matrix). -/
structure FullDraws where
  /-- Source: `np.random.normal(65, 12, n_patients)` -/
  ageZ : ℕ → ℚ
  /-- Source: `np.random.choice(['IIIC', 'IV'], p=[0.75, 0.25])` -/
  stagePick : ℕ → Stage
  /-- Source: `np.random.choice(['HGSOC', 'CCOC', 'Other'], p=[0.6, 0.25, 0.15])` -/
  subtypePick : ℕ → HistSubtype
  /-- Source: `np.random.lognormal(6, 1.2, n_patients)` -/
  ca125Z : ℕ → ℚ
  /-- Source: `np.random.choice(['Wild-type', 'BRCA1/2_mut'], p=[0.8, 0.2])` -/
  brcaPick : ℕ → BrcaStatus
  /-- Source: `np.random.normal(5, 2, (50, n_patients))`, indexed gene then patient -/
  geneBase : ℕ → ℕ → ℚ
  /-- Source: `np.random.normal(1.5, 0.4, …)` added to genes `0..9` of HGSOC patients -/
  hgsocShift : ℕ → ℕ → ℚ
  /-- Source: `np.random.normal(1.8, 0.3, …)` added to genes `10..19` of CCOC patients -/
  ccocShift : ℕ → ℕ → ℚ
  /-- Source: `np.random.normal(0, 0.35, (11, n_patients))`, indexed arm then patient -/
  cnvBase : ℕ → ℕ → ℚ
  /-- Source: `np.random.normal(0.4, 0.2, …)` added to arm `3q` of HGSOC patients -/
  cnv3qShift : ℕ → ℚ
  /-- Source: `np.random.normal(0.3, 0.25, n_patients)` added to arm `8q` of everyone -/
  cnv8qShift : ℕ → ℚ
  /-- Source: `np.random.normal(0, 4, n_patients)` (survival noise) -/
  survNoise : ℕ → ℚ
  /-- uniform draw deciding `np.random.binomial(1, ·)` for `death_event` -/
  deathU : ℕ → ℚ
  /-- Source: `np.random.normal(0, 0.15, n_patients)` (resistance noise) -/
  resistNoise : ℕ → ℚ
  /-- uniform draw deciding `np.random.binomial(1, resistance_prob)` -/
  resistU : ℕ → ℚ

/-- Integer clip, as in `np.clip(arr.astype(int), lo, hi)`. -/
def npClipInt (lo hi x : ℤ) : ℤ := min hi (max lo x)

/-- Source: `'age': np.clip(np.random.normal(65, 12, n_patients).astype(int), 35, 85)` -/
def fullAge (d : FullDraws) (i : ℕ) : ℤ := npClipInt 35 85 (truncInt (d.ageZ i))

/-- Source: `'ca125': np.clip(np.random.lognormal(6, 1.2, n_patients).astype(int), 10, 50000)` -/
def fullCa125 (d : FullDraws) (i : ℕ) : ℤ := npClipInt 10 50000 (truncInt (d.ca125Z i))

/-- Source: `gene_data` after the two subtype-specific signature additions:
rows `0..9` get the HGSOC shift, rows `10..19` get the CCOC shift. -/
def fullGene (d : FullDraws) (i g : ℕ) : ℚ :=
  d.geneBase g i
    + (if d.subtypePick i = .HGSOC ∧ g < 10 then d.hgsocShift g i else 0)
    + (if d.subtypePick i = .CCOC ∧ 10 ≤ g ∧ g < 20 then d.ccocShift (g - 10) i else 0)

/-- Source: `cnv_data` after the `3q`-gain (HGSOC, arm index 2) and `8q`-gain
(all patients, arm index 4) additions. -/
def fullCnv (d : FullDraws) (i a : ℕ) : ℚ :=
  d.cnvBase a i
    + (if a = 2 ∧ d.subtypePick i = .HGSOC then d.cnv3qShift i else 0)
    + (if a = 4 then d.cnv8qShift i else 0)

/-- Source: `base_survival = np.where(subtype == 'HGSOC', 28, np.where(subtype == 'CCOC', 20, 24))` -/
def fullBaseSurvival : HistSubtype → ℚ
  | .HGSOC => 28
  | .CCOC => 20
  | .Other => 24

/-- Source: `age_effect = -0.25 * (age - 65) / 12` -/
def fullAgeEffect (age : ℤ) : ℚ := -(1/4) * ((age : ℚ) - 65) / 12

/-- Source: `stage_effect = np.where(stage == 'IV', -6, 0)` -/
def fullStageEffect : Stage → ℚ
  | .IV => -6
  | .IIIC => 0

/-- Source: `brca_effect = np.where(brca_status == 'BRCA1/2_mut', 8, 0)` -/
def fullBrcaEffect : BrcaStatus → ℚ
  | .mut => 8
  | .wildType => 0

/-- Source: `gene_effect = gene_df[['TP53', 'BRCA1', 'PTEN']].mean(axis=1) * 1.5`
(gene indices 0, 1 and 4 in the column order of `gene_names`). -/
def fullGeneEffect (d : FullDraws) (i : ℕ) : ℚ :=
  (fullGene d i 0 + fullGene d i 1 + fullGene d i 4) / 3 * (3/2)

/-- Source: `cnv_effect = -cnv_df.abs().sum(axis=1) * 0.5` -/
def fullCnvEffect (d : FullDraws) (i : ℕ) : ℚ :=
  -((List.range 11).map fun a => |fullCnv d i a|).sum * (1/2)

/-- The additive survival model before clipping, noise included. -/
def fullSurvivalPre (d : FullDraws) (i : ℕ) : ℚ :=
  fullBaseSurvival (d.subtypePick i) + fullAgeEffect (fullAge d i)
    + fullStageEffect (d.stagePick i) + fullBrcaEffect (d.brcaPick i)
    + fullGeneEffect d i + fullCnvEffect d i + d.survNoise i

/-- Source: `survival_months = np.clip(base + … + np.random.normal(0, 4, n), 2, 80)` -/
def fullSurvivalMonths (d : FullDraws) (i : ℕ) : ℚ := npClip 2 80 (fullSurvivalPre d i)

/-- Source: `resist_base = np.where(subtype == 'HGSOC', 0.30, np.where(subtype == 'CCOC', 0.70, 0.45))` -/
def fullResistBase : HistSubtype → ℚ
  | .HGSOC => 3/10
  | .CCOC => 7/10
  | .Other => 9/20

/-- Source: `brca_resist_effect = np.where(brca_status == 'BRCA1/2_mut', -0.35, 0)` -/
def fullBrcaResistEffect : BrcaStatus → ℚ
  | .mut => -(7/20)
  | .wildType => 0

/-- Source: `gene_resist_effect = np.tanh(gene_df['PIK3CA'] * 0.2 - gene_df['BRCA1'] * 0.1)`
(gene indices 3 and 1). `np.tanh` is transcendental, so it is passed in as an
abstract function `tanh : ℚ → ℚ`; no claim depends on its values, only on the
clip applied to the sum it enters. -/
def fullGeneResistEffect (tanh : ℚ → ℚ) (d : FullDraws) (i : ℕ) : ℚ :=
  tanh (fullGene d i 3 * (1/5) - fullGene d i 1 * (1/10))

/-- Source: `resistance_prob = np.clip(resist_base + brca_resist_effect + gene_resist_effect + np.random.normal(0, 0.15, n), 0.05, 0.95)` -/
def fullResistanceProb (tanh : ℚ → ℚ) (d : FullDraws) (i : ℕ) : ℚ :=
  npClip (1/20) (19/20)
    (fullResistBase (d.subtypePick i) + fullBrcaResistEffect (d.brcaPick i)
      + fullGeneResistEffect tanh d i + d.resistNoise i)

/-- One row of the patient table assembled by `generate_demo_data`. -/
structure FullPatient where
  id : String
  age : ℤ
  stage : Stage
  subtype : HistSubtype
  ca125 : ℤ
  brca_status : BrcaStatus
  /-- Source: `np.round(survival_months, 1)` -/
  survival_months : ℚ
  /-- Source: `np.random.binomial(1, 1 / (1 + np.exp((survival_months - 24) / 10)))`;
  the logistic transform is the abstract `logistic` argument below -/
  death_event : ℕ
  /-- Source: `np.random.binomial(1, resistance_prob)` -/
  platinum_resistant : ℕ
  /-- Source: `np.round(resistance_prob, 3)` -/
  resistance_prob_true : ℚ
deriving DecidableEq, Repr

/-- The patient at 0-based position `i` of the table (its `id` uses the 1-based
ordinal `i + 1`, as in `range(1, n_patients + 1)`). -/
def mkFullPatient (tanh logistic : ℚ → ℚ) (d : FullDraws) (i : ℕ) : FullPatient :=
  { id := patientId (i + 1)
    age := fullAge d i
    stage := d.stagePick i
    subtype := d.subtypePick i
    ca125 := fullCa125 d i
    brca_status := d.brcaPick i
    survival_months := pyRound 1 (fullSurvivalMonths d i)
    death_event := if d.deathU i < logistic ((fullSurvivalMonths d i - 24) / 10) then 1 else 0
    platinum_resistant := if d.resistU i < fullResistanceProb tanh d i then 1 else 0
    resistance_prob_true := pyRound 3 (fullResistanceProb tanh d i) }

/-- Source: `generate_demo_data(n_patients)`: executes `np.random.seed(42)` first, so
the draw stream used is `Ω 42` whatever RNG state `rngState` the call was made
under, then builds one patient per index. -/
def generate_demo_data (Ω : ℤ → FullDraws) (tanh logistic : ℚ → ℚ)
    (_rngState : ℤ) (nPatients : ℕ) : List FullPatient :=
  let d := Ω 42
  (List.range nPatients).map (mkFullPatient tanh logistic d)

/-! ### Feature-matrix columns of the full variant -/

/-- Source: `pd.get_dummies(patients[['age', 'stage', 'subtype', 'brca_status']], drop_first=True)`:
`age` passes through numeric; each categorical contributes one indicator per
category except the alphabetically first. -/
def clinicalDummyColumns : List String :=
  ["age", "stage_IV", "subtype_HGSOC", "subtype_Other", "brca_status_Wild-type"]

/-- Source: `gene_names`: ten named cancer genes followed by `GENE_011` … `GENE_050`. -/
def geneNames : List String :=
  ["TP53", "BRCA1", "BRCA2", "PIK3CA", "PTEN", "MYC", "CCNE1", "RB1", "KRAS", "AKT1"]
    ++ (List.range' 11 40).map (fun i => "GENE_" ++ pyFormat03 i)

/-- Source: `cnv_arms`, prefixed as in `columns=[f'cnv_{arm}' for arm in cnv_arms]`. -/
def cnvColumns : List String :=
  ["1p", "1q", "3q", "6p", "8q", "11p", "17p", "17q", "19p", "20q", "22q"].map
    (fun arm => "cnv_" ++ arm)

/-- Source: `features = pd.concat([clinical_features, gene_df.iloc[:, :20], cnv_df], axis=1)`,
where `clinical_features` already received the extra `log_ca125` column. -/
def featureColumns : List String :=
  (clinicalDummyColumns ++ ["log_ca125"]) ++ geneNames.take 20 ++ cnvColumns

/-! ## Simplified variant (`streamlit_app_simple.py`): seeded cohort loop

The module-level block runs `random.seed(42)` and then a loop over
`range(1, 201)`; as for the full variant, each `random` call of the loop body
is an oracle field indexed by the 1-based loop variable, and the whole stream
is a function of the seed. -/

/-- One abstract draw stream of the simplified cohort loop. -/
structure SimpleDraws where
  /-- Source: `random.gauss(65, 12)` -/
  ageZ : ℕ → ℚ
  /-- Source: `random.choices(['IIIC', 'IV'], [0.75, 0.25])[0]` -/
  stagePick : ℕ → Stage
  /-- Source: `random.choices(['HGSOC', 'CCOC', 'Other'], [0.6, 0.25, 0.15])[0]` -/
  subtypePick : ℕ → HistSubtype
  /-- Source: `random.lognormvariate(6, 1.2)` -/
  ca125Z : ℕ → ℚ
  /-- Source: `random.choices(['Wild-type', 'BRCA1/2_mut'], [0.8, 0.2])[0]` -/
  brcaPick : ℕ → BrcaStatus
  /-- Source: `random.gauss(0, 4)` (survival noise) -/
  survNoise : ℕ → ℚ
  /-- Source: `random.random()` compared against the logistic transform for `death_event` -/
  deathU : ℕ → ℚ
  /-- Source: `random.gauss(0, 0.15)` (resistance noise) -/
  resistNoise : ℕ → ℚ
  /-- Source: `random.random()` compared against `resistance_prob` -/
  resistU : ℕ → ℚ

/-- Source: `'age': max(35, min(85, int(random.gauss(65, 12))))` -/
def simpleAge (d : SimpleDraws) (i : ℕ) : ℤ := max 35 (min 85 (truncInt (d.ageZ i)))

/-- Source: `'ca125': max(10, int(random.lognormvariate(6, 1.2)))` — no upper clip here. -/
def simpleCa125 (d : SimpleDraws) (i : ℕ) : ℤ := max 10 (truncInt (d.ca125Z i))

/-- Source: `base_survival = 28 if subtype == 'HGSOC' else (20 if subtype == 'CCOC' else 24)` -/
def simpleBaseSurvival : HistSubtype → ℚ
  | .HGSOC => 28
  | .CCOC => 20
  | .Other => 24

/-- Source: `age_effect = -0.25 * (age - 65) / 12` -/
def simpleAgeEffect (age : ℤ) : ℚ := -(1/4) * ((age : ℚ) - 65) / 12

/-- Source: `stage_effect = -6 if stage == 'IV' else 0` -/
def simpleStageEffect : Stage → ℚ
  | .IV => -6
  | .IIIC => 0

/-- Source: `brca_effect = 8 if brca_status == 'BRCA1/2_mut' else 0` -/
def simpleBrcaEffect : BrcaStatus → ℚ
  | .mut => 8
  | .wildType => 0

/-- Source: `survival = max(2, base_survival + age_effect + stage_effect + brca_effect + random.gauss(0, 4))`
— only a lower bound is applied; there is no upper clip in this variant. -/
def simpleSurvival (d : SimpleDraws) (i : ℕ) : ℚ :=
  max 2 (simpleBaseSurvival (d.subtypePick i) + simpleAgeEffect (simpleAge d i)
    + simpleStageEffect (d.stagePick i) + simpleBrcaEffect (d.brcaPick i) + d.survNoise i)

/-- Source: `resist_base = 0.3 if subtype == 'HGSOC' else (0.7 if subtype == 'CCOC' else 0.45)` -/
def simpleResistBase : HistSubtype → ℚ
  | .HGSOC => 3/10
  | .CCOC => 7/10
  | .Other => 9/20

/-- Source: `brca_resist = -0.35 if brca_status == 'BRCA1/2_mut' else 0` -/
def simpleBrcaResist : BrcaStatus → ℚ
  | .mut => -(7/20)
  | .wildType => 0

/-- Source: `resistance_prob = max(0.05, min(0.95, resist_base + brca_resist + random.gauss(0, 0.15)))` -/
def simpleResistanceProb (d : SimpleDraws) (i : ℕ) : ℚ :=
  max (1/20) (min (19/20)
    (simpleResistBase (d.subtypePick i) + simpleBrcaResist (d.brcaPick i) + d.resistNoise i))

/-- One dict of the simplified cohort list. -/
structure SimplePatient where
  id : String
  age : ℤ
  stage : Stage
  subtype : HistSubtype
  ca125 : ℤ
  brca_status : BrcaStatus
  /-- Source: `round(survival, 1)` -/
  survival_months : ℚ
  /-- Source: `1 if random.random() < 1 / (1 + math.exp((survival - 24) / 10)) else 0`;
  the logistic transform is the abstract `logistic` argument below -/
  death_event : ℕ
  /-- Source: `1 if random.random() < resistance_prob else 0` -/
  platinum_resistant : ℕ
  /-- Source: `round(resistance_prob, 3)` -/
  resistance_prob_true : ℚ
deriving DecidableEq, Repr

/-- Loop body for the 1-based loop variable `i` (`for i in range(1, 201)`). -/
def mkSimplePatient (logistic : ℚ → ℚ) (d : SimpleDraws) (i : ℕ) : SimplePatient :=
  { id := patientId i
    age := simpleAge d i
    stage := d.stagePick i
    subtype := d.subtypePick i
    ca125 := simpleCa125 d i
    brca_status := d.brcaPick i
    survival_months := pyRound 1 (simpleSurvival d i)
    death_event := if d.deathU i < logistic ((simpleSurvival d i - 24) / 10) then 1 else 0
    platinum_resistant := if d.resistU i < simpleResistanceProb d i then 1 else 0
    resistance_prob_true := pyRound 3 (simpleResistanceProb d i) }

/-- The seeded initialization block: `random.seed(42)` followed by the loop
over `range(1, 201)`; the incoming RNG state is discarded by the reseed. -/
def simpleCohort (Ω : ℤ → SimpleDraws) (logistic : ℚ → ℚ) (_rngState : ℤ) :
    List SimplePatient :=
  let d := Ω 42
  (List.range' 1 200).map (mkSimplePatient logistic d)

/-! ## Digital twin reports -/

/-- The computed content of one digital twin report (the derived quantities the
render pass displays). -/
structure TwinReport where
  predSurvival : ℚ
  predResistProb : ℚ
  risk : RiskCategory
  treatment : TreatmentRec
deriving DecidableEq, Repr

/-- Full variant: the two fitted estimators are opaque functions from a feature
row to a prediction (`predict` and `predict_proba(...)[0, 1]`); the report body
derives the two categorizations from their outputs. No RNG is touched. -/
def fullTwinReport (survivalModel resistanceModel : List ℚ → ℚ)
    (patientFeatures : List ℚ) : TwinReport :=
  let predSurvival := survivalModel patientFeatures
  let predResistanceProb := resistanceModel patientFeatures
  { predSurvival := predSurvival
    predResistProb := predResistanceProb
    risk := riskCategoryFull predSurvival
    treatment := treatmentRecFull predResistanceProb }

/-- State of the `random` module: the last seed set and how many draws were
consumed since. -/
structure PyRandState where
  seed : ℤ
  idx : ℕ
deriving DecidableEq, Repr

/-- Source: `random.seed(n)`: resets the stream, discarding the previous state. -/
def pySeed (n : ℤ) (_ : PyRandState) : PyRandState := ⟨n, 0⟩

/-- Source: `random.gauss(mu, sigma)` under a stream oracle `G` giving the `k`-th
standard draw after seeding with `s`. -/
def gaussDraw (G : ℤ → ℕ → ℚ) (mu sigma : ℚ) (st : PyRandState) : ℚ × PyRandState :=
  (mu + sigma * G st.seed st.idx, ⟨st.seed, st.idx + 1⟩)

/-- Simplified variant report body: re-seeds with
`random.seed(hash(selected_patient_id) % 1000)` (the salted string `hash` is
process-dependent and passed in as `pyHash`), fakes a survival prediction as
`max(2, actual + random.gauss(0, 3))` and a resistance probability as
`max(0.05, min(0.95, base + brca_adjust + random.gauss(0, 0.1)))` with
`brca_adjust = -0.3`, then applies the same two ladders. -/
def simpleTwinReport (G : ℤ → ℕ → ℚ) (pyHash : String → ℤ)
    (p : SimplePatient) (st : PyRandState) : TwinReport :=
  let st1 := pySeed (pyHash p.id % 1000) st
  let (z1, st2) := gaussDraw G 0 3 st1
  let predSurvival := max 2 (p.survival_months + z1)
  let baseResist : ℚ := simpleResistBase p.subtype
  let brcaAdjust : ℚ := if p.brca_status = .mut then -(3/10) else 0
  let (z2, _) := gaussDraw G 0 (1/10) st2
  let predResistanceProb := max (1/20) (min (19/20) (baseResist + brcaAdjust + z2))
  { predSurvival := predSurvival
    predResistProb := predResistanceProb
    risk := riskCategorySimple predSurvival
    treatment := treatmentRecSimple predResistanceProb }

/-! ## Trainer (`train_models`) and its metrics -/

/-- Source: `sklearn.metrics.mean_absolute_error(y_true, y_pred)`. -/
def maeList (yTrue yPred : List ℚ) : ℚ :=
  ((List.zipWith (fun a b => |a - b|) yTrue yPred).sum) / yTrue.length

/-- Arithmetic mean of a list. -/
def meanList (xs : List ℚ) : ℚ := xs.sum / xs.length

/-- Deviations from the mean. -/
def centered (xs : List ℚ) : List ℚ := xs.map (fun x => x - meanList xs)

/-- Numerator sum of `np.corrcoef(xs, ys)[0, 1]`. -/
def covSum (xs ys : List ℚ) : ℚ := (List.zipWith (· * ·) (centered xs) (centered ys)).sum

/-- Sum of squared deviations (the per-list factor under the square root of
`np.corrcoef`'s denominator). -/
def varSum (xs : List ℚ) : ℚ := ((centered xs).map (fun x => x ^ 2)).sum

/-- Source: `np.corrcoef(xs, ys)[0, 1]` equals `covSum / (√(varSum xs) * √(varSum ys))`
and is NaN exactly when a denominator factor vanishes. -/
def corrcoefDefined (xs ys : List ℚ) : Bool := decide (varSum xs ≠ 0 ∧ varSum ys ≠ 0)

/-- Contribution of one (positive score, negative score) pair to the
Mann–Whitney form of the area under the ROC curve. -/
def aucPair (p n : ℚ) : ℚ := if n < p then 1 else if n = p then 1/2 else 0

/-- Scores of the class-1 entries of `(yTrue, scores)`. -/
def posScores (yTrue : List ℕ) (scores : List ℚ) : List ℚ :=
  (List.zip yTrue scores).filterMap (fun t => if t.1 = 1 then some t.2 else none)

/-- Scores of the class-0 entries of `(yTrue, scores)`. -/
def negScores (yTrue : List ℕ) (scores : List ℚ) : List ℚ :=
  (List.zip yTrue scores).filterMap (fun t => if t.1 = 1 then none else some t.2)

/-- Source: `sklearn.metrics.roc_auc_score(y_true, scores)` in its Mann–Whitney form:
the tie-aware fraction of correctly ordered (positive, negative) pairs. -/
def rocAuc (yTrue : List ℕ) (scores : List ℚ) : ℚ :=
  (((posScores yTrue scores).map fun p =>
      ((negScores yTrue scores).map fun n => aucPair p n).sum).sum)
    / ((posScores yTrue scores).length * (negScores yTrue scores).length)

/-- The one failure the trainer can hit according to the spec. -/
inductive TrainError where
  | stratifiedSplitError
deriving DecidableEq, Repr

/-- Source: `True` when every label equals the first one (degenerate distribution). -/
def isConstantLabel (y : List ℕ) : Bool := y.all (fun v => v = y.headD 0)

/-- Modelled from the spec: `sklearn.model_selection.train_test_split(...,
stratify=y)` is external library code; per the spec ("degenerate stratification
if the binary label is constant … would raise from the underlying library") it
raises on a constant stratification label and otherwise partitions the data.
The randomized choice of partition is abstracted as the membership mask
`testMask` over row indices. -/
def train_test_split (_testMask : ℕ → Bool) (y : List ℕ) :
    Except TrainError Unit :=
  if isConstantLabel y then .error .stratifiedSplitError else .ok ()

/-- Rows of `xs` whose index the mask sends to `b`. -/
def selectBy (testMask : ℕ → Bool) (b : Bool) {α : Type} (xs : List α) : List α :=
  ((List.range xs.length).zip xs).filterMap
    (fun p => if testMask p.1 = b then some p.2 else none)

/-- The two opaque estimator constructors
(`RandomForestRegressor(n_estimators=100, random_state=42).fit` and
`RandomForestClassifier(...).fit` followed by `predict` /
`predict_proba[:, 1]`). -/
structure RfOracles where
  fitReg : List (List ℚ) → List ℚ → (List ℚ → ℚ)
  fitClf : List (List ℚ) → List ℕ → (List ℚ → ℚ)

/-- Everything `train_models` returns (models, test data and predictions from
which the three metrics are computed). -/
structure TrainOutput where
  survivalModel : List ℚ → ℚ
  resistanceModel : List ℚ → ℚ
  ySurvTest : List ℚ
  yResistTest : List ℕ
  survPred : List ℚ
  resistPredProb : List ℚ
  survival_mae : ℚ
deriving Inhabited

/-- Source: `train_models(features, targets)`: one stratified split, two fits, test-set
predictions and the three metrics. There is no `try`/`except` anywhere in the
function, so the split's error is returned unhandled to the caller. -/
def train_models (o : RfOracles) (testMask : ℕ → Bool)
    (features : List (List ℚ)) (ySurv : List ℚ) (yResist : List ℕ) :
    Except TrainError TrainOutput :=
  match train_test_split testMask yResist with
  | .error e => .error e
  | .ok () =>
    let XTrain := selectBy testMask false features
    let XTest := selectBy testMask true features
    let ySurvTrain := selectBy testMask false ySurv
    let ySurvTest := selectBy testMask true ySurv
    let yResistTrain := selectBy testMask false yResist
    let yResistTest := selectBy testMask true yResist
    let survivalModel := o.fitReg XTrain ySurvTrain
    let resistanceModel := o.fitClf XTrain yResistTrain
    let survPred := XTest.map survivalModel
    let resistPredProb := XTest.map resistanceModel
    .ok
      { survivalModel := survivalModel
        resistanceModel := resistanceModel
        ySurvTest := ySurvTest
        yResistTest := yResistTest
        survPred := survPred
        resistPredProb := resistPredProb
        survival_mae := maeList ySurvTest survPred }

/-! ## Concrete draw streams and inputs used in witnesses and counterexamples -/

/-- A concrete simplified-variant draw stream: a mutated-BRCA HGSOC patient
aged 35 at stage IIIC whose survival-noise draw (`random.gauss(0, 4)`) came
out at 60 — far in the tail, but inside the Gaussian's support. -/
def cxSimpleDraws : SimpleDraws :=
  { ageZ := fun _ => 35
    stagePick := fun _ => .IIIC
    subtypePick := fun _ => .HGSOC
    ca125Z := fun _ => 100
    brcaPick := fun _ => .mut
    survNoise := fun _ => 60
    deathU := fun _ => 1
    resistNoise := fun _ => 0
    resistU := fun _ => 1 }

/-- A concrete cohort member used to exercise the simplified report. -/
def cxPatient : SimplePatient :=
  { id := patientId 1
    age := 60
    stage := .IIIC
    subtype := .HGSOC
    ca125 := 100
    brca_status := .wildType
    survival_months := 30
    death_event := 0
    platinum_resistant := 0
    resistance_prob_true := 3/10 }

/-- Concrete estimator oracles: both "fitted models" predict the first feature
of the row. -/
def cxOracles : RfOracles :=
  { fitReg := fun _ _ => fun r => r.headD 0
    fitClf := fun _ _ => fun r => r.headD 0 }

/-- Concrete split mask: even row indices form the test fold. -/
def cxMask : ℕ → Bool := fun i => i % 2 == 0

/-- Concrete feature table (one feature per row). -/
def cxFeatures : List (List ℚ) := [[1], [2], [3], [4]]

/-- Concrete non-constant survival labels. -/
def cxYSurv : List ℚ := [10, 20, 30, 40]

/-- Concrete constant survival labels (legal input: only the binary label is
stratified on). -/
def cxYSurvConst : List ℚ := [5, 5, 5, 5]

/-- Concrete non-degenerate binary labels (both classes in the test fold). -/
def cxYResist : List ℕ := [0, 1, 1, 0]

/-- The trainer output on the non-constant survival labels. -/
def cxTrainOutput : TrainOutput :=
  match train_models cxOracles cxMask cxFeatures cxYSurv cxYResist with
  | .ok out => out
  | .error _ => default

/-- The trainer output on the constant survival labels. -/
def cxBadTrainOutput : TrainOutput :=
  match train_models cxOracles cxMask cxFeatures cxYSurvConst cxYResist with
  | .ok out => out
  | .error _ => default

/-- A concrete full-variant draw stream with every draw at its distribution
mean. -/
def cxFullDraws : FullDraws :=
  { ageZ := fun _ => 65
    stagePick := fun _ => .IIIC
    subtypePick := fun _ => .HGSOC
    ca125Z := fun _ => 400
    brcaPick := fun _ => .wildType
    geneBase := fun _ _ => 5
    hgsocShift := fun _ _ => 3/2
    ccocShift := fun _ _ => 9/5
    cnvBase := fun _ _ => 0
    cnv3qShift := fun _ => 2/5
    cnv8qShift := fun _ => 3/10
    survNoise := fun _ => 0
    deathU := fun _ => 1
    resistNoise := fun _ => 0
    resistU := fun _ => 1 }

end FMToy

/-! ## Theorems -/

namespace FMToy

/-! ### Helper lemmas on the numeric primitives -/

/-- Clipping lands in the interval whenever `lo ≤ hi`. -/
theorem npClip_le_bounds (lo hi x : ℚ) (h : lo ≤ hi) :
    lo ≤ npClip lo hi x ∧ npClip lo hi x ≤ hi := by
  unfold npClip
  constructor
  · exact le_min h (le_max_left lo x)
  · exact min_le_left hi _

/-- Half-even rounding never moves below the floor. -/
theorem floor_le_roundHalfEven (q : ℚ) : ⌊q⌋ ≤ roundHalfEven q := by
  unfold roundHalfEven
  split_ifs <;> omega

/-- Half-even rounding never moves above the floor plus one. -/
theorem roundHalfEven_le_floor_add_one (q : ℚ) : roundHalfEven q ≤ ⌊q⌋ + 1 := by
  unfold roundHalfEven
  split_ifs <;> omega

/-- Source: `pyRound d` respects a lower bound exactly representable with `d` decimal
digits. -/
theorem le_pyRound_of_le {d : ℕ} {lo x : ℚ}
    (hlo : lo * 10 ^ d = (⌊lo * 10 ^ d⌋ : ℚ)) (h1 : lo ≤ x) : lo ≤ pyRound d x := by
  have hpow : (0:ℚ) < 10 ^ d := by positivity
  have hmono1 : lo * 10 ^ d ≤ x * 10 ^ d := mul_le_mul_of_nonneg_right h1 hpow.le
  have hfl : ⌊lo * 10 ^ d⌋ ≤ ⌊x * 10 ^ d⌋ := Int.floor_le_floor hmono1
  have h3 : ⌊lo * 10 ^ d⌋ ≤ roundHalfEven (x * 10 ^ d) :=
    le_trans hfl (floor_le_roundHalfEven _)
  unfold pyRound
  rw [le_div_iff₀ hpow, hlo]
  exact_mod_cast h3

/-- Source: `pyRound d` respects an upper bound exactly representable with `d` decimal
digits. -/
theorem pyRound_le_of_le {d : ℕ} {hi x : ℚ}
    (hhi : hi * 10 ^ d = (⌊hi * 10 ^ d⌋ : ℚ)) (h2 : x ≤ hi) : pyRound d x ≤ hi := by
  have hpow : (0:ℚ) < 10 ^ d := by positivity
  have hmono2 : x * 10 ^ d ≤ hi * 10 ^ d := mul_le_mul_of_nonneg_right h2 hpow.le
  have hfu' : ⌊x * 10 ^ d⌋ ≤ ⌊hi * 10 ^ d⌋ := Int.floor_le_floor hmono2
  have h4 : roundHalfEven (x * 10 ^ d) ≤ ⌊hi * 10 ^ d⌋ := by
    rcases lt_or_le (⌊x * 10 ^ d⌋) (⌊hi * 10 ^ d⌋) with h | h
    · exact le_trans (roundHalfEven_le_floor_add_one _) (by omega)
    · have hx : roundHalfEven (x * 10 ^ d) ≤ ⌊x * 10 ^ d⌋ := by
        have heq : ⌊x * 10 ^ d⌋ = ⌊hi * 10 ^ d⌋ := le_antisymm hfu' h
        -- with equal floors, x has zero fractional part at the top end
        have hxv : x * 10 ^ d = (⌊x * 10 ^ d⌋ : ℚ) := by
          have hle : x * 10 ^ d ≤ (⌊x * 10 ^ d⌋ : ℚ) := by rw [heq, ← hhi]; exact hmono2
          exact le_antisymm hle (Int.floor_le _)
        have hfrac : x * 10 ^ d - (⌊x * 10 ^ d⌋ : ℚ) = 0 := by linarith [hxv]
        unfold roundHalfEven
        rw [hfrac]
        norm_num
      exact le_trans hx hfu'
  unfold pyRound
  rw [div_le_iff₀ hpow, hhi]
  exact_mod_cast h4

/-! ### Injectivity of the patient identifier -/

/-- Digit characters are distinct on actual digits. -/
theorem digitChar_injOn : ∀ d₁ < 10, ∀ d₂ < 10, digitChar d₁ = digitChar d₂ → d₁ = d₂ := by
  decide

/-- A nonzero digit never renders as `'0'`. -/
theorem digitChar_ne_zero : ∀ d < 10, d ≠ 0 → digitChar d ≠ '0' := by decide

/-- Numeric value of a digit character. -/
def chVal (c : Char) : ℕ := c.toNat - 48

/-- Value of a least-significant-first digit-character list. -/
def ofDigitsLSB (l : List Char) : ℕ := l.foldr (fun c acc => chVal c + 10 * acc) 0

theorem chVal_digitChar : ∀ d < 10, chVal (digitChar d) = d := by decide

/-- Source: `decDigitsCore` digit lists reconstruct their number. -/
theorem ofDigitsLSB_decDigitsCore :
    ∀ fuel n, n ≤ fuel → ofDigitsLSB (decDigitsCore fuel n) = n := by
  intro fuel
  induction fuel with
  | zero => intro n hn; interval_cases n; rfl
  | succ fuel ih =>
    intro n hn
    match n with
    | 0 => rfl
    | n + 1 =>
      have hdiv : (n + 1) / 10 ≤ fuel := by
        have := Nat.div_lt_self (Nat.succ_pos n) (by norm_num : 1 < 10)
        omega
      have hrec := ih ((n + 1) / 10) hdiv
      have hmod : (n + 1) % 10 < 10 := Nat.mod_lt _ (by norm_num)
      calc ofDigitsLSB (decDigitsCore (fuel + 1) (n + 1))
          = chVal (digitChar ((n + 1) % 10)) + 10 * ofDigitsLSB (decDigitsCore fuel ((n + 1) / 10)) := rfl
        _ = (n + 1) % 10 + 10 * ((n + 1) / 10) := by rw [chVal_digitChar _ hmod, hrec]
        _ = n + 1 := by omega

/-- Source: `decRepr` is injective. -/
theorem decRepr_injective {n m : ℕ} (h : decRepr n = decRepr m) : n = m := by
  unfold decRepr at h
  split_ifs at h with hn hm hm
  · omega
  · exfalso
    have h0 : ofDigitsLSB (decDigitsCore m m) = m := ofDigitsLSB_decDigitsCore m m le_rfl
    have h1 : decDigitsCore m m = ['0'] := by
      have := congrArg List.reverse h
      simpa using this.symm
    rw [h1] at h0
    simp [ofDigitsLSB, chVal, digitChar] at h0
    omega
  · exfalso
    have h0 : ofDigitsLSB (decDigitsCore n n) = n := ofDigitsLSB_decDigitsCore n n le_rfl
    have h1 : decDigitsCore n n = ['0'] := by
      have := congrArg List.reverse h
      simpa using this
    rw [h1] at h0
    simp [ofDigitsLSB, chVal, digitChar] at h0
    omega
  · have h2 : decDigitsCore n n = decDigitsCore m m := by
      have := congrArg List.reverse h
      simpa using this
    have h3 := ofDigitsLSB_decDigitsCore n n le_rfl
    have h4 := ofDigitsLSB_decDigitsCore m m le_rfl
    rw [← h3, ← h4, h2]

/-- The most significant digit of a positive number is not `'0'`. -/
theorem decDigitsCore_reverse_head :
    ∀ fuel n, 0 < n → n ≤ fuel →
      ∃ c t, (decDigitsCore fuel n).reverse = c :: t ∧ c ≠ '0' := by
  intro fuel
  induction fuel with
  | zero => intro n h1 h2; omega
  | succ fuel ih =>
    intro n h1 h2
    obtain ⟨m, rfl⟩ : ∃ m, n = m + 1 := ⟨n - 1, by omega⟩
    by_cases hq : (m + 1) / 10 = 0
    · refine ⟨digitChar ((m + 1) % 10), [], ?_, ?_⟩
      · have hnil : decDigitsCore fuel ((m + 1) / 10) = [] := by
          rw [hq]; cases fuel <;> rfl
        show (digitChar ((m + 1) % 10) :: decDigitsCore fuel ((m + 1) / 10)).reverse = _
        rw [hnil]
        rfl
      · have hlt : m + 1 < 10 := by
          rcases Nat.lt_or_ge (m + 1) 10 with h | h
          · exact h
          · exact absurd (Nat.div_pos h (by norm_num)) (by omega)
        have hmod : (m + 1) % 10 = m + 1 := Nat.mod_eq_of_lt hlt
        rw [hmod]
        exact digitChar_ne_zero (m + 1) hlt (by omega)
    · have hqpos : 0 < (m + 1) / 10 := Nat.pos_of_ne_zero hq
      have hdle : (m + 1) / 10 ≤ fuel := by
        have := Nat.div_lt_self (Nat.succ_pos m) (by norm_num : 1 < 10)
        omega
      obtain ⟨c, t, hct, hc⟩ := ih _ hqpos hdle
      refine ⟨c, t ++ [digitChar ((m + 1) % 10)], ?_, hc⟩
      show (digitChar ((m + 1) % 10) :: decDigitsCore fuel ((m + 1) / 10)).reverse = _
      rw [List.reverse_cons, hct]
      rfl

/-- Left-stripping zeros undoes zero padding. -/
theorem dropWhile_padZeros (w : ℕ) (l : List Char) :
    (padZeros w l).dropWhile (fun c => c == '0') = l.dropWhile (fun c => c == '0') := by
  unfold padZeros
  generalize w - l.length = k
  induction k with
  | zero => rfl
  | succ k ihk =>
    rw [List.replicate_succ, List.cons_append, List.dropWhile_cons_of_pos (by rfl)]
    exact ihk

/-- A list whose head is not `'0'` is untouched by zero stripping. -/
theorem dropWhile_of_head_ne_zero {c : Char} {t : List Char} (h : c ≠ '0') :
    (c :: t).dropWhile (fun c => c == '0') = c :: t :=
  List.dropWhile_cons_of_neg (by simp [h])

/-- Source: `patientId` distinguishes distinct positive ordinals. -/
theorem patientId_injOn {i j : ℕ} (hi : 0 < i) (hj : 0 < j)
    (h : patientId i = patientId j) : i = j := by
  have hdata : ('O' :: 'V' :: padZeros 3 (decRepr i)) = ('O' :: 'V' :: padZeros 3 (decRepr j)) := by
    have := congrArg String.data h
    simpa [patientId, pyFormat03] using this
  have hpad : padZeros 3 (decRepr i) = padZeros 3 (decRepr j) := by
    injection hdata with _ h1
    injection h1 with _ h2
  -- for positive numbers the representation starts with a nonzero digit
  have hrepr : ∀ k : ℕ, 0 < k →
      (decRepr k).dropWhile (fun c => c == '0') = decRepr k := by
    intro k hk
    obtain ⟨c, t, hct, hc⟩ := decDigitsCore_reverse_head k k hk le_rfl
    have hrev : decRepr k = c :: t := by
      unfold decRepr
      rw [if_neg (by omega)]
      exact hct
    rw [hrev]
    exact dropWhile_of_head_ne_zero hc
  have hstrip : decRepr i = decRepr j := by
    calc decRepr i
        = (decRepr i).dropWhile (fun c => c == '0') := (hrepr i hi).symm
      _ = (padZeros 3 (decRepr i)).dropWhile (fun c => c == '0') :=
          (dropWhile_padZeros 3 _).symm
      _ = (padZeros 3 (decRepr j)).dropWhile (fun c => c == '0') := by rw [hpad]
      _ = (decRepr j).dropWhile (fun c => c == '0') := dropWhile_padZeros 3 _
      _ = decRepr j := hrepr j hj
  exact decRepr_injective hstrip

end FMToy

namespace FMToy

/-- C2. For every predicted survival value `s`, in both variants the risk
category is exactly `high` when `s < 15`, `medium` when `15 ≤ s < 30`, and
`low` when `s ≥ 30`; the three cases are exhaustive and mutually exclusive
because each is equivalent to one branch of a trichotomy on `s`. -/
theorem risk_category_exact (s : ℚ) :
    (riskCategoryFull s = .high ↔ s < 15) ∧
    (riskCategoryFull s = .medium ↔ 15 ≤ s ∧ s < 30) ∧
    (riskCategoryFull s = .low ↔ 30 ≤ s) ∧
    riskCategorySimple s = riskCategoryFull s := by
  unfold riskCategoryFull riskCategorySimple
  split_ifs with h1 h2 <;>
    refine ⟨?_, ?_, ?_, rfl⟩ <;> simp <;>
      first
        | (constructor <;> linarith)
        | (intros; linarith)

/-- C3 counterexample. The claim places `0.4` in the monitoring tier and
`0.7` in the alternative-therapy tier, but both comparisons in the source are
strict (`>`), so at exactly `0.4` both variants recommend standard platinum
therapy, and at exactly `0.7` both recommend monitoring rather than
alternative therapy. -/
theorem treatment_rec_boundary_counterexample :
    treatmentRecFull (2/5) = .standard ∧ treatmentRecFull (2/5) ≠ .monitoring ∧
    treatmentRecSimple (2/5) = .standard ∧
    treatmentRecFull (7/10) = .monitoring ∧ treatmentRecFull (7/10) ≠ .alternative ∧
    treatmentRecSimple (7/10) = .monitoring := by
  refine ⟨?_, ?_, ?_, ?_, ?_, ?_⟩ <;>
    norm_num [treatmentRecFull, treatmentRecSimple] <;> decide

/-- C3 (amended). For every predicted resistance probability `p`, in both
variants the recommendation is standard platinum therapy when `p ≤ 0.4`,
platinum with monitoring when `0.4 < p ≤ 0.7`, and alternative therapy when
`p > 0.7`: the thresholds sit at 0.4 and 0.7 but both boundary points belong
to the lower tier (strict `>` comparisons), not the upper one as claimed. -/
theorem treatment_rec_exact (p : ℚ) :
    (treatmentRecFull p = .standard ↔ p ≤ 2/5) ∧
    (treatmentRecFull p = .monitoring ↔ 2/5 < p ∧ p ≤ 7/10) ∧
    (treatmentRecFull p = .alternative ↔ 7/10 < p) ∧
    treatmentRecSimple p = treatmentRecFull p := by
  unfold treatmentRecFull treatmentRecSimple
  split_ifs with h1 h2 <;>
    refine ⟨?_, ?_, ?_, rfl⟩ <;> simp <;>
      first
        | (constructor <;> linarith)
        | (intros; linarith)

/-- C10. In both variants the report marks the resistance prediction
correct exactly when the strict comparison `p > 0.5` agrees with the actual
resistance flag being `1`; at `p = 0.5` the comparison is false, so the
prediction counts as sensitive: it is marked correct against an actual
sensitive patient and incorrect against an actual resistant one. -/
theorem resistance_correct_iff (p : ℚ) (flag : ℕ) :
    (resistanceCorrect p flag = true ↔ (p > 1/2 ↔ flag = 1)) ∧
    resistanceCorrect (1/2) 0 = true ∧
    resistanceCorrect (1/2) 1 = false := by
  have key : ∀ (q : ℚ) (f : ℕ),
      resistanceCorrect q f = true ↔ (q > 1/2 ↔ f = 1) := by
    intro q f
    unfold resistanceCorrect
    rw [beq_iff_eq, decide_eq_decide]
  refine ⟨key p flag, ?_, ?_⟩
  · rw [key]
    norm_num
  · rw [Bool.eq_false_iff]
    intro hc
    rw [key] at hc
    norm_num at hc

/-- C9. The feature matrix of the full variant keeps exactly the first 20
of the 50 generated gene-expression columns: every gene in `take 20` is a
feature column, no gene in `drop 20` is, and the assembled column list is the
clinical dummies, `log_ca125`, those 20 genes and the 11 CNV columns. -/
theorem feature_columns_first20_genes :
    geneNames.length = 50 ∧
    (∀ g ∈ geneNames.take 20, g ∈ featureColumns) ∧
    (∀ g ∈ geneNames.drop 20, g ∉ featureColumns) ∧
    featureColumns =
      (clinicalDummyColumns ++ ["log_ca125"]) ++ geneNames.take 20 ++ cnvColumns ∧
    cnvColumns.length = 11 := by
  refine ⟨by decide, by decide, by decide, rfl, by decide⟩

/-- C5. Both generators reseed their RNG on entry, so their output is
independent of the RNG state they are invoked under (repeated invocations are
identical, and they have no effect other than returning the new data); the
full generator yields exactly `n` patients and the simplified one exactly 200;
the identifier lists are exactly the `"OV"`-tagged zero-padded 1-based
ordinals, pairwise distinct. -/
theorem generator_count_ids_idempotent :
    (∀ (Ω : ℤ → FullDraws) (tanh logistic : ℚ → ℚ) (s₁ s₂ : ℤ) (n : ℕ),
      generate_demo_data Ω tanh logistic s₁ n = generate_demo_data Ω tanh logistic s₂ n) ∧
    (∀ (Ω : ℤ → FullDraws) (tanh logistic : ℚ → ℚ) (s : ℤ) (n : ℕ),
      (generate_demo_data Ω tanh logistic s n).length = n ∧
      (generate_demo_data Ω tanh logistic s n).map (fun p => p.id)
        = (List.range n).map (fun i => "OV" ++ pyFormat03 (i + 1)) ∧
      ((generate_demo_data Ω tanh logistic s n).map (fun p => p.id)).Nodup) ∧
    (∀ (Ω : ℤ → SimpleDraws) (logistic : ℚ → ℚ) (s₁ s₂ : ℤ),
      simpleCohort Ω logistic s₁ = simpleCohort Ω logistic s₂) ∧
    (∀ (Ω : ℤ → SimpleDraws) (logistic : ℚ → ℚ) (s : ℤ),
      (simpleCohort Ω logistic s).length = 200 ∧
      (simpleCohort Ω logistic s).map (fun p => p.id)
        = (List.range' 1 200).map (fun i => "OV" ++ pyFormat03 i) ∧
      ((simpleCohort Ω logistic s).map (fun p => p.id)).Nodup) := by
  refine ⟨fun _ _ _ _ _ _ => rfl, ?_, fun _ _ _ _ => rfl, ?_⟩
  · intro Ω tanh logistic s n
    refine ⟨by simp [generate_demo_data], ?_, ?_⟩
    · unfold generate_demo_data
      rw [List.map_map]
      rfl
    · unfold generate_demo_data
      rw [List.map_map]
      refine List.Nodup.map_on ?_ (List.nodup_range n)
      intro i _ j _ hij
      have hinj : i + 1 = j + 1 :=
        patientId_injOn (Nat.succ_pos i) (Nat.succ_pos j) hij
      omega
  · intro Ω logistic s
    refine ⟨by simp [simpleCohort], ?_, ?_⟩
    · unfold simpleCohort
      rw [List.map_map]
      rfl
    · unfold simpleCohort
      rw [List.map_map]
      refine List.Nodup.map_on ?_ (List.nodup_range' 1 200)
      intro i hi j hj hij
      have hipos : 0 < i := by
        have := List.mem_range'_1.mp hi
        omega
      have hjpos : 0 < j := by
        have := List.mem_range'_1.mp hj
        omega
      exact patientId_injOn hipos hjpos hij

/-! ### C1: survival range -/

/-- A rational that is an integer after scaling by `10 ^ d` equals its own
scaled floor (the representability side condition of the rounding lemmas). -/
theorem decimal_repr {q : ℚ} {d : ℕ} (m : ℤ) (h : q * 10 ^ d = (m : ℚ)) :
    q * 10 ^ d = (⌊q * 10 ^ d⌋ : ℚ) := by
  rw [h, Int.floor_intCast]

/-- C1 counterexample. The simplified variant computes
`survival = max(2, base + effects + noise)` with no upper clip, so a large
(but possible) Gaussian noise draw escapes `[2, 80]`: with a noise draw of 60
the first generated patient of the cohort records
`survival_months = 96.6 > 80`. -/
theorem survival_upper_bound_counterexample :
    (simpleCohort (fun _ => cxSimpleDraws) (fun _ => 0) 0).head?
        = some (mkSimplePatient (fun _ => 0) cxSimpleDraws 1) ∧
    (mkSimplePatient (fun _ => 0) cxSimpleDraws 1).survival_months = 483/5 ∧
    ¬ ((mkSimplePatient (fun _ => 0) cxSimpleDraws 1).survival_months ≤ 80) := by
  have hage : simpleAge cxSimpleDraws 1 = 35 := by
    unfold simpleAge cxSimpleDraws truncInt
    rw [if_pos (by norm_num)]
    rw [show ⌊(35:ℚ)⌋ = 35 from Int.floor_eq_iff.mpr (by norm_num)]
    decide
  have hsum : simpleBaseSurvival (cxSimpleDraws.subtypePick 1)
      + simpleAgeEffect (simpleAge cxSimpleDraws 1)
      + simpleStageEffect (cxSimpleDraws.stagePick 1)
      + simpleBrcaEffect (cxSimpleDraws.brcaPick 1)
      + cxSimpleDraws.survNoise 1 = 773/8 := by
    rw [hage]
    norm_num [cxSimpleDraws, simpleBaseSurvival, simpleAgeEffect, simpleStageEffect,
      simpleBrcaEffect]
  have hsurv : simpleSurvival cxSimpleDraws 1 = 773/8 := by
    unfold simpleSurvival
    rw [hsum, max_eq_right (by norm_num : (2:ℚ) ≤ 773/8)]
  have hround : pyRound 1 (773/8 : ℚ) = 483/5 := by
    unfold pyRound roundHalfEven
    rw [show (773/8 : ℚ) * 10 ^ 1 = 3865/4 from by norm_num]
    rw [show ⌊(3865/4 : ℚ)⌋ = 966 from Int.floor_eq_iff.mpr (by norm_num)]
    norm_num
  have hval : (mkSimplePatient (fun _ => 0) cxSimpleDraws 1).survival_months = 483/5 := by
    show pyRound 1 (simpleSurvival cxSimpleDraws 1) = 483/5
    rw [hsurv, hround]
  exact ⟨rfl, hval, by rw [hval]; norm_num⟩

/-- C1 (amended). In the full variant every recorded survival lies in
`[2, 80]` (`np.clip(…, 2, 80)` before `np.round(…, 1)`); in the simplified
variant the survival is only bounded below by 2 (`max(2, …)`) — there is no
upper clipping there. -/
theorem survival_range :
    (∀ (Ω : ℤ → FullDraws) (tanh logistic : ℚ → ℚ) (s : ℤ) (n : ℕ),
      ∀ p ∈ generate_demo_data Ω tanh logistic s n,
        2 ≤ p.survival_months ∧ p.survival_months ≤ 80) ∧
    (∀ (Ω : ℤ → SimpleDraws) (logistic : ℚ → ℚ) (s : ℤ),
      ∀ p ∈ simpleCohort Ω logistic s, 2 ≤ p.survival_months) := by
  constructor
  · intro Ω tanh logistic s n p hp
    unfold generate_demo_data at hp
    rw [List.mem_map] at hp
    obtain ⟨i, _, rfl⟩ := hp
    show 2 ≤ pyRound 1 (fullSurvivalMonths (Ω 42) i)
      ∧ pyRound 1 (fullSurvivalMonths (Ω 42) i) ≤ 80
    have hb := npClip_le_bounds 2 80 (fullSurvivalPre (Ω 42) i)
      (by norm_num)
    exact ⟨le_pyRound_of_le (decimal_repr 20 (by norm_num)) hb.1,
      pyRound_le_of_le (decimal_repr 800 (by norm_num)) hb.2⟩
  · intro Ω logistic s p hp
    unfold simpleCohort at hp
    rw [List.mem_map] at hp
    obtain ⟨i, _, rfl⟩ := hp
    show 2 ≤ pyRound 1 (simpleSurvival (Ω 42) i)
    exact le_pyRound_of_le (decimal_repr 20 (by norm_num)) (le_max_left _ _)

/-- Witness for `survival_range` at concrete draw streams. -/
theorem survival_range_witness :
    (2 ≤ (mkFullPatient (fun _ => 0) (fun _ => 0) cxFullDraws 0).survival_months ∧
      (mkFullPatient (fun _ => 0) (fun _ => 0) cxFullDraws 0).survival_months ≤ 80) ∧
    2 ≤ (mkSimplePatient (fun _ => 0) cxSimpleDraws 1).survival_months :=
  ⟨survival_range.1 (fun _ => cxFullDraws) (fun _ => 0) (fun _ => 0) 0 1 _
      (by simp [generate_demo_data, List.range_succ]),
    survival_range.2 (fun _ => cxSimpleDraws) (fun _ => 0) 0 _
      (by
        show mkSimplePatient _ _ 1 ∈ simpleCohort _ _ 0
        unfold simpleCohort
        rw [List.mem_map]
        exact ⟨1, by decide, rfl⟩)⟩

/-! ### C7: age and true-resistance-probability ranges -/

/-- C7. In both variants every generated age lies in `[35, 85]` (integer
clip of the Gaussian age draw) and every recorded true resistance probability
lies in `[0.05, 0.95]` (clip before the 3-digit rounding, which preserves both
bounds because `0.05` and `0.95` are exactly representable to 3 decimals). -/
theorem age_and_resistance_prob_range :
    (∀ (Ω : ℤ → FullDraws) (tanh logistic : ℚ → ℚ) (s : ℤ) (n : ℕ),
      ∀ p ∈ generate_demo_data Ω tanh logistic s n,
        (35 ≤ p.age ∧ p.age ≤ 85) ∧
        (1/20 ≤ p.resistance_prob_true ∧ p.resistance_prob_true ≤ 19/20)) ∧
    (∀ (Ω : ℤ → SimpleDraws) (logistic : ℚ → ℚ) (s : ℤ),
      ∀ p ∈ simpleCohort Ω logistic s,
        (35 ≤ p.age ∧ p.age ≤ 85) ∧
        (1/20 ≤ p.resistance_prob_true ∧ p.resistance_prob_true ≤ 19/20)) := by
  constructor
  · intro Ω tanh logistic s n p hp
    unfold generate_demo_data at hp
    rw [List.mem_map] at hp
    obtain ⟨i, _, rfl⟩ := hp
    constructor
    · show 35 ≤ npClipInt 35 85 (truncInt ((Ω 42).ageZ i))
        ∧ npClipInt 35 85 (truncInt ((Ω 42).ageZ i)) ≤ 85
      unfold npClipInt
      omega
    · show 1/20 ≤ pyRound 3 (fullResistanceProb tanh (Ω 42) i)
        ∧ pyRound 3 (fullResistanceProb tanh (Ω 42) i) ≤ 19/20
      have hb := npClip_le_bounds (1/20) (19/20)
        (fullResistBase ((Ω 42).subtypePick i) + fullBrcaResistEffect ((Ω 42).brcaPick i)
          + fullGeneResistEffect tanh (Ω 42) i + (Ω 42).resistNoise i)
        (by norm_num)
      exact ⟨le_pyRound_of_le (decimal_repr 50 (by norm_num)) hb.1,
        pyRound_le_of_le (decimal_repr 950 (by norm_num)) hb.2⟩
  · intro Ω logistic s p hp
    unfold simpleCohort at hp
    rw [List.mem_map] at hp
    obtain ⟨i, _, rfl⟩ := hp
    constructor
    · show 35 ≤ max 35 (min 85 (truncInt ((Ω 42).ageZ i)))
        ∧ max 35 (min 85 (truncInt ((Ω 42).ageZ i))) ≤ 85
      omega
    · show 1/20 ≤ pyRound 3 (simpleResistanceProb (Ω 42) i)
        ∧ pyRound 3 (simpleResistanceProb (Ω 42) i) ≤ 19/20
      have hlow : (1/20 : ℚ) ≤ simpleResistanceProb (Ω 42) i := le_max_left _ _
      have hhigh : simpleResistanceProb (Ω 42) i ≤ 19/20 :=
        max_le (by norm_num) (min_le_left _ _)
      exact ⟨le_pyRound_of_le (decimal_repr 50 (by norm_num)) hlow,
        pyRound_le_of_le (decimal_repr 950 (by norm_num)) hhigh⟩

/-- Witness for `age_and_resistance_prob_range` at concrete draw streams. -/
theorem age_and_resistance_prob_range_witness :
    ((35 ≤ (mkFullPatient (fun _ => 0) (fun _ => 0) cxFullDraws 0).age ∧
        (mkFullPatient (fun _ => 0) (fun _ => 0) cxFullDraws 0).age ≤ 85) ∧
      (1/20 ≤ (mkFullPatient (fun _ => 0) (fun _ => 0) cxFullDraws 0).resistance_prob_true ∧
        (mkFullPatient (fun _ => 0) (fun _ => 0) cxFullDraws 0).resistance_prob_true ≤ 19/20)) ∧
    ((35 ≤ (mkSimplePatient (fun _ => 0) cxSimpleDraws 1).age ∧
        (mkSimplePatient (fun _ => 0) cxSimpleDraws 1).age ≤ 85) ∧
      (1/20 ≤ (mkSimplePatient (fun _ => 0) cxSimpleDraws 1).resistance_prob_true ∧
        (mkSimplePatient (fun _ => 0) cxSimpleDraws 1).resistance_prob_true ≤ 19/20)) :=
  ⟨age_and_resistance_prob_range.1 (fun _ => cxFullDraws) (fun _ => 0) (fun _ => 0) 0 1 _
      (by simp [generate_demo_data, List.range_succ]),
    age_and_resistance_prob_range.2 (fun _ => cxSimpleDraws) (fun _ => 0) 0 _
      (by
        show mkSimplePatient _ _ 1 ∈ simpleCohort _ _ 0
        unfold simpleCohort
        rw [List.mem_map]
        exact ⟨1, by decide, rfl⟩)⟩

/-! ### C4: determinism of the digital twin report -/

/-- C4 counterexample. The simplified report seeds its noise from
`hash(selected_patient_id) % 1000`, and Python's string `hash` is salted per
process: under two hash functions (as produced by two process runs with
different salts) the same patient and the same noise-stream semantics yield
different survival predictions, so the report is not identical across process
runs in that variant. -/
theorem twin_report_process_counterexample :
    (simpleTwinReport (fun s _ => (s : ℚ)) (fun _ => 0) cxPatient ⟨0, 0⟩).predSurvival = 30 ∧
    (simpleTwinReport (fun s _ => (s : ℚ)) (fun _ => 1) cxPatient ⟨0, 0⟩).predSurvival = 33 ∧
    simpleTwinReport (fun s _ => (s : ℚ)) (fun _ => 0) cxPatient ⟨0, 0⟩
      ≠ simpleTwinReport (fun s _ => (s : ℚ)) (fun _ => 1) cxPatient ⟨0, 0⟩ := by
  have h0 : (simpleTwinReport (fun s _ => (s : ℚ)) (fun _ => 0) cxPatient ⟨0, 0⟩).predSurvival
      = 30 := by
    show max 2 (cxPatient.survival_months + (0 + 3 * (((0 : ℤ) % 1000 : ℤ) : ℚ))) = 30
    norm_num [cxPatient]
  have h1 : (simpleTwinReport (fun s _ => (s : ℚ)) (fun _ => 1) cxPatient ⟨0, 0⟩).predSurvival
      = 33 := by
    show max 2 (cxPatient.survival_months + (0 + 3 * (((1 : ℤ) % 1000 : ℤ) : ℚ))) = 33
    norm_num [cxPatient]
  refine ⟨h0, h1, fun hc => ?_⟩
  have := congrArg TwinReport.predSurvival hc
  rw [h0, h1] at this
  norm_num at this

/-- C4 (amended). The full variant's report is a pure function of the
fitted model pair and the feature row (two invocations with equal models and
equal rows coincide, across any process run). The simplified variant's report
is deterministic within a process: it does not depend on the prior RNG state
(it reseeds), and it depends on the process's string hash only through
`hash(id) % 1000` — but that hash value changes across process runs. -/
theorem twin_report_determinism :
    (∀ (sm rm sm' rm' : List ℚ → ℚ) (row row' : List ℚ),
      sm = sm' → rm = rm' → row = row' →
      fullTwinReport sm rm row = fullTwinReport sm' rm' row') ∧
    (∀ (G : ℤ → ℕ → ℚ) (h₁ h₂ : String → ℤ) (p : SimplePatient) (st₁ st₂ : PyRandState),
      h₁ p.id % 1000 = h₂ p.id % 1000 →
      simpleTwinReport G h₁ p st₁ = simpleTwinReport G h₂ p st₂) := by
  constructor
  · rintro sm rm _ _ row _ rfl rfl rfl
    rfl
  · intro G h₁ h₂ p st₁ st₂ hh
    unfold simpleTwinReport pySeed gaussDraw
    rw [hh]

/-- Witness for `twin_report_determinism` at concrete models, hash functions
and RNG states. -/
theorem twin_report_determinism_witness :
    fullTwinReport (fun _ => 20) (fun _ => 1/2) [1, 2] = fullTwinReport (fun _ => 20) (fun _ => 1/2) [1, 2] ∧
    simpleTwinReport (fun s _ => (s : ℚ)) (fun _ => 0) cxPatient ⟨0, 0⟩
      = simpleTwinReport (fun s _ => (s : ℚ)) (fun _ => 0) cxPatient ⟨5, 7⟩ :=
  ⟨twin_report_determinism.1 _ _ _ _ _ _ rfl rfl rfl,
    twin_report_determinism.2 (fun s _ => (s : ℚ)) (fun _ => 0) (fun _ => 0) cxPatient ⟨0, 0⟩ ⟨5, 7⟩ rfl⟩

/-! ### C6: degenerate stratification label -/

/-- C6. On a constant binary label the trainer fails during the (spec-
modelled) stratified split, before either estimator is fitted; there is no
guard or handler in `train_models`, so the error value reaches the caller
unchanged and no models are returned. -/
theorem constant_label_split_error :
    ∀ (o : RfOracles) (mask : ℕ → Bool) (features : List (List ℚ))
      (ySurv : List ℚ) (yResist : List ℕ),
      isConstantLabel yResist = true →
      train_models o mask features ySurv yResist = .error .stratifiedSplitError := by
  intro o mask features ySurv yResist hconst
  unfold train_models train_test_split
  rw [if_pos hconst]

/-- Witness for `constant_label_split_error` on an all-ones label column. -/
theorem constant_label_split_error_witness :
    isConstantLabel [1, 1, 1] = true ∧
    train_models cxOracles cxMask [[1], [2], [3]] [4, 5, 6] [1, 1, 1]
      = .error .stratifiedSplitError :=
  ⟨by decide, constant_label_split_error cxOracles cxMask [[1], [2], [3]] [4, 5, 6] [1, 1, 1] (by decide)⟩

/-! ### C8: metric bounds -/

/-- The MAE numerator is a sum of absolute values, hence nonnegative. -/
theorem zipWith_absDiff_sum_nonneg :
    ∀ (a b : List ℚ), 0 ≤ (List.zipWith (fun x y => |x - y|) a b).sum
  | [], _ => by simp
  | _ :: _, [] => by simp
  | x :: xs, y :: ys => by
    rw [List.zipWith_cons_cons, List.sum_cons]
    exact add_nonneg (abs_nonneg _) (zipWith_absDiff_sum_nonneg xs ys)

/-- Source: `mean_absolute_error` is nonnegative on any inputs. -/
theorem maeList_nonneg (a b : List ℚ) : 0 ≤ maeList a b :=
  div_nonneg (zipWith_absDiff_sum_nonneg a b) (Nat.cast_nonneg _)

/-- Bridge from the `zipWith` sum to an indexed `Finset` sum. -/
theorem sum_zipWith_mul (a b : List ℚ) :
    (List.zipWith (· * ·) a b).sum
      = ∑ i ∈ Finset.range (min a.length b.length), a.getD i 0 * b.getD i 0 := by
  induction a generalizing b with
  | nil => simp
  | cons x xs ih =>
    cases b with
    | nil => simp
    | cons y ys =>
      rw [List.zipWith_cons_cons, List.sum_cons, ih ys, List.length_cons, List.length_cons,
        Nat.succ_min_succ, Finset.sum_range_succ']
      simp [add_comm]

/-- Bridge from the squared-map sum to an indexed `Finset` sum. -/
theorem sum_map_sq (a : List ℚ) :
    (a.map (fun x => x ^ 2)).sum = ∑ i ∈ Finset.range a.length, a.getD i 0 ^ 2 := by
  induction a with
  | nil => simp
  | cons x xs ih =>
    rw [List.map_cons, List.sum_cons, ih, List.length_cons, Finset.sum_range_succ']
    simp [add_comm]

/-- Cauchy–Schwarz for list sums. -/
theorem list_cauchy_schwarz (a b : List ℚ) :
    (List.zipWith (· * ·) a b).sum ^ 2
      ≤ (a.map (fun x => x ^ 2)).sum * (b.map (fun x => x ^ 2)).sum := by
  have key := Finset.sum_mul_sq_le_sq_mul_sq (Finset.range (min a.length b.length))
    (fun i => a.getD i 0) (fun i => b.getD i 0)
  rw [sum_zipWith_mul]
  have h1 : ∑ i ∈ Finset.range (min a.length b.length), a.getD i 0 ^ 2
      ≤ (a.map (fun x => x ^ 2)).sum := by
    rw [sum_map_sq]
    exact Finset.sum_le_sum_of_subset_of_nonneg
      (Finset.range_subset.mpr (Nat.min_le_left _ _)) (fun i _ _ => sq_nonneg _)
  have h2 : ∑ i ∈ Finset.range (min a.length b.length), b.getD i 0 ^ 2
      ≤ (b.map (fun x => x ^ 2)).sum := by
    rw [sum_map_sq]
    exact Finset.sum_le_sum_of_subset_of_nonneg
      (Finset.range_subset.mpr (Nat.min_le_right _ _)) (fun i _ _ => sq_nonneg _)
  refine le_trans key (mul_le_mul h1 h2 (Finset.sum_nonneg fun i _ => sq_nonneg _) ?_)
  exact le_trans (Finset.sum_nonneg fun i _ => sq_nonneg _) h1

/-- The centered sum of squares is nonnegative. -/
theorem varSum_nonneg (xs : List ℚ) : 0 ≤ varSum xs :=
  List.sum_nonneg fun x hx => by
    obtain ⟨a, -, rfl⟩ := List.mem_map.mp hx
    exact sq_nonneg a

/-- Cauchy–Schwarz for the correlation numerator and denominator factors. -/
theorem covSum_sq_le (xs ys : List ℚ) : covSum xs ys ^ 2 ≤ varSum xs * varSum ys :=
  list_cauchy_schwarz (centered xs) (centered ys)

/-- Whenever both centered sums of squares are nonzero, the Pearson
correlation `covSum / (√varSum * √varSum)` lies in `[-1, 1]`. -/
theorem pearson_corr_bounds (xs ys : List ℚ)
    (hx : varSum xs ≠ 0) (hy : varSum ys ≠ 0) :
    -1 ≤ (covSum xs ys : ℝ) / (Real.sqrt (varSum xs) * Real.sqrt (varSum ys)) ∧
    (covSum xs ys : ℝ) / (Real.sqrt (varSum xs) * Real.sqrt (varSum ys)) ≤ 1 := by
  have hxq : (0:ℚ) < varSum xs := lt_of_le_of_ne (varSum_nonneg xs) (Ne.symm hx)
  have hyq : (0:ℚ) < varSum ys := lt_of_le_of_ne (varSum_nonneg ys) (Ne.symm hy)
  have hA : (0:ℝ) < ((varSum xs : ℚ) : ℝ) := by exact_mod_cast hxq
  have hB : (0:ℝ) < ((varSum ys : ℚ) : ℝ) := by exact_mod_cast hyq
  have hD : (0:ℝ) < Real.sqrt (varSum xs) * Real.sqrt (varSum ys) :=
    mul_pos (Real.sqrt_pos.mpr hA) (Real.sqrt_pos.mpr hB)
  have hsq : ((covSum xs ys : ℚ) : ℝ) ^ 2
      ≤ (Real.sqrt (varSum xs) * Real.sqrt (varSum ys)) ^ 2 := by
    rw [mul_pow, Real.sq_sqrt hA.le, Real.sq_sqrt hB.le]
    exact_mod_cast covSum_sq_le xs ys
  obtain ⟨hlow, hhigh⟩ := abs_le_of_sq_le_sq' hsq hD.le
  constructor
  · rw [le_div_iff₀ hD]
    linarith
  · rw [div_le_one hD]
    exact hhigh

/-- Each pair contribution to the AUC is in `[0, 1]`. -/
theorem aucPair_bounds (p n : ℚ) : 0 ≤ aucPair p n ∧ aucPair p n ≤ 1 := by
  unfold aucPair
  split_ifs <;> norm_num

/-- Whenever both classes occur, the Mann–Whitney AUC lies in `[0, 1]`. -/
theorem rocAuc_bounds (y : List ℕ) (s : List ℚ)
    (hp : posScores y s ≠ []) (hn : negScores y s ≠ []) :
    0 ≤ rocAuc y s ∧ rocAuc y s ≤ 1 := by
  have hinner : ∀ p : ℚ, 0 ≤ ((negScores y s).map fun n => aucPair p n).sum ∧
      ((negScores y s).map fun n => aucPair p n).sum ≤ ((negScores y s).length : ℚ) := by
    intro p
    constructor
    · exact List.sum_nonneg fun x hx => by
        obtain ⟨a, -, rfl⟩ := List.mem_map.mp hx
        exact (aucPair_bounds p a).1
    · have h := List.sum_le_card_nsmul ((negScores y s).map fun n => aucPair p n) 1
        (fun x hx => by
          obtain ⟨a, -, rfl⟩ := List.mem_map.mp hx
          exact (aucPair_bounds p a).2)
      simpa using h
  have houter0 : 0 ≤ ((posScores y s).map fun p =>
      ((negScores y s).map fun n => aucPair p n).sum).sum :=
    List.sum_nonneg fun x hx => by
      obtain ⟨a, -, rfl⟩ := List.mem_map.mp hx
      exact (hinner a).1
  have houter1 : ((posScores y s).map fun p =>
      ((negScores y s).map fun n => aucPair p n).sum).sum
      ≤ ((posScores y s).length : ℚ) * ((negScores y s).length : ℚ) := by
    have h := List.sum_le_card_nsmul ((posScores y s).map fun p =>
        ((negScores y s).map fun n => aucPair p n).sum) ((negScores y s).length : ℚ)
      (fun x hx => by
        obtain ⟨a, -, rfl⟩ := List.mem_map.mp hx
        exact (hinner a).2)
    simpa [nsmul_eq_mul] using h
  have hdenom : (0:ℚ) < ((posScores y s).length : ℚ) * ((negScores y s).length : ℚ) := by
    have h1 := List.length_pos.mpr hp
    have h2 := List.length_pos.mpr hn
    have h1' : (0:ℚ) < ((posScores y s).length : ℚ) := by exact_mod_cast h1
    have h2' : (0:ℚ) < ((negScores y s).length : ℚ) := by exact_mod_cast h2
    exact mul_pos h1' h2'
  unfold rocAuc
  constructor
  · exact div_nonneg houter0 hdenom.le
  · rw [div_le_one hdenom]
    exact houter1

/-- Source: `train_models` on a non-degenerate label: the full output record. -/
theorem train_models_of_not_constant (o : RfOracles) (mask : ℕ → Bool)
    (features : List (List ℚ)) (ySurv : List ℚ) (yResist : List ℕ)
    (hc : isConstantLabel yResist = false) :
    train_models o mask features ySurv yResist = .ok
      { survivalModel := o.fitReg (selectBy mask false features) (selectBy mask false ySurv)
        resistanceModel := o.fitClf (selectBy mask false features) (selectBy mask false yResist)
        ySurvTest := selectBy mask true ySurv
        yResistTest := selectBy mask true yResist
        survPred := (selectBy mask true features).map
          (o.fitReg (selectBy mask false features) (selectBy mask false ySurv))
        resistPredProb := (selectBy mask true features).map
          (o.fitClf (selectBy mask false features) (selectBy mask false yResist))
        survival_mae := maeList (selectBy mask true ySurv)
          ((selectBy mask true features).map
            (o.fitReg (selectBy mask false features) (selectBy mask false ySurv))) } := by
  unfold train_models train_test_split
  rw [if_neg (by simp [hc])]

/-- C8 counterexample. A feature table with a constant survival column and
a non-degenerate binary column is accepted by the trainer, but then the
survival test labels are constant, the centered sum of squares vanishes, and
`np.corrcoef` divides zero by zero: the reported correlation is NaN, which
does not lie in `[-1, 1]`. -/
theorem correlation_undefined_counterexample :
    train_models cxOracles cxMask cxFeatures cxYSurvConst cxYResist = .ok cxBadTrainOutput ∧
    isConstantLabel cxYResist = false ∧
    cxBadTrainOutput.ySurvTest = [5, 5] ∧
    corrcoefDefined cxBadTrainOutput.survPred cxBadTrainOutput.ySurvTest = false := by
  refine ⟨rfl, by decide, rfl, ?_⟩
  unfold corrcoefDefined
  rw [decide_eq_false_iff_not]
  rintro ⟨-, hy⟩
  apply hy
  rw [show cxBadTrainOutput.ySurvTest = [5, 5] from rfl]
  norm_num [varSum, centered, meanList]

/-- C8 (amended). For every accepted input, the returned MAE is
nonnegative; the returned correlation lies in `[-1, 1]` whenever it is defined
(nonzero centered sums of squares on both coordinates — otherwise
`np.corrcoef` yields NaN); and the returned AUC lies in `[0, 1]` whenever both
classes occur in the test fold (otherwise `roc_auc_score` raises). -/
theorem trainer_metric_bounds :
    ∀ (o : RfOracles) (mask : ℕ → Bool) (features : List (List ℚ))
      (ySurv : List ℚ) (yResist : List ℕ) (out : TrainOutput),
      train_models o mask features ySurv yResist = .ok out →
      0 ≤ out.survival_mae ∧
      (varSum out.survPred ≠ 0 → varSum out.ySurvTest ≠ 0 →
        -1 ≤ (covSum out.survPred out.ySurvTest : ℝ)
            / (Real.sqrt (varSum out.survPred) * Real.sqrt (varSum out.ySurvTest)) ∧
        (covSum out.survPred out.ySurvTest : ℝ)
            / (Real.sqrt (varSum out.survPred) * Real.sqrt (varSum out.ySurvTest)) ≤ 1) ∧
      (posScores out.yResistTest out.resistPredProb ≠ [] →
        negScores out.yResistTest out.resistPredProb ≠ [] →
        0 ≤ rocAuc out.yResistTest out.resistPredProb ∧
        rocAuc out.yResistTest out.resistPredProb ≤ 1) := by
  intro o mask features ySurv yResist out h
  rcases hc : isConstantLabel yResist with hfalse | htrue
  · rw [train_models_of_not_constant o mask features ySurv yResist hc] at h
    injection h with h'
    subst h'
    exact ⟨maeList_nonneg _ _,
      fun hx hy => pearson_corr_bounds _ _ hx hy,
      fun hp hn => rocAuc_bounds _ _ hp hn⟩
  · unfold train_models train_test_split at h
    rw [if_pos hc] at h
    exact (Except.noConfusion h)

/-- Witness for `trainer_metric_bounds` on a concrete accepted input whose
test fold has nonconstant labels and predictions and both classes. -/
theorem trainer_metric_bounds_witness :
    0 ≤ cxTrainOutput.survival_mae ∧
    (-1 ≤ (covSum cxTrainOutput.survPred cxTrainOutput.ySurvTest : ℝ)
        / (Real.sqrt (varSum cxTrainOutput.survPred) * Real.sqrt (varSum cxTrainOutput.ySurvTest)) ∧
      (covSum cxTrainOutput.survPred cxTrainOutput.ySurvTest : ℝ)
        / (Real.sqrt (varSum cxTrainOutput.survPred) * Real.sqrt (varSum cxTrainOutput.ySurvTest)) ≤ 1) ∧
    (0 ≤ rocAuc cxTrainOutput.yResistTest cxTrainOutput.resistPredProb ∧
      rocAuc cxTrainOutput.yResistTest cxTrainOutput.resistPredProb ≤ 1) := by
  have h := trainer_metric_bounds cxOracles cxMask cxFeatures cxYSurv cxYResist
    cxTrainOutput rfl
  refine ⟨h.1, h.2.1 ?_ ?_, h.2.2 ?_ ?_⟩
  · rw [show cxTrainOutput.survPred = [1, 3] from rfl]
    norm_num [varSum, centered, meanList]
  · rw [show cxTrainOutput.ySurvTest = [10, 30] from rfl]
    norm_num [varSum, centered, meanList]
  · rw [show posScores cxTrainOutput.yResistTest cxTrainOutput.resistPredProb = [3] from rfl]
    simp
  · rw [show negScores cxTrainOutput.yResistTest cxTrainOutput.resistPredProb = [1] from rfl]
    simp

end FMToy
